import Mathlib

/-!
# Verification of the Advanced Measure Tool measurement session

A shallow embedding of `AdvancedMeasureTool.py`: the measurement-session
state machine of a map-canvas measuring tool.  Map coordinates are modelled
as rationals, the geodesic length engine and the coordinate-transform
service as black-box function parameters, and Python's `round` (round half
to even) as an explicit operation on rationals.  Each event handler of the
inner map tool class is translated into a pure state-transition function.
-/

/-! ## Rounding: Python's `round` (banker's rounding) on rationals -/

/-- Python's `round` to an integer: round half to even. -/
def pyRoundInt (q : ℚ) : ℤ :=
  let f := ⌊q⌋
  let r := q - (f : ℚ)
  if r < 1/2 then f
  else if 1/2 < r then f + 1
  else if 2 ∣ f then f else f + 1

/-- Python's `round(q, d)`: round to `d` decimal places, half to even. -/
def roundTo (d : ℕ) (q : ℚ) : ℚ :=
  (pyRoundInt (q * 10 ^ d) : ℚ) / 10 ^ d

/-! ## Host-side data: points, reference systems, calculator, services -/

/-- A map-canvas point (`QgsPointXY`), coordinates as rationals. -/
structure Point where
  x : ℚ
  y : ℚ
deriving DecidableEq, Repr, Inhabited

/-- A coordinate reference system, with its authority id and whether it is
geographic (`QgsCoordinateReferenceSystem.isGeographic`). -/
structure CRS where
  authid : String
  isGeographic : Bool
deriving DecidableEq, Repr, Inhabited

/-- The WGS84 geographic reference system, `QgsCoordinateReferenceSystem("EPSG:4326")`. -/
def wgs84_crs : CRS := { authid := "EPSG:4326", isGeographic := true }

/-- The ambient host state read by the tool at event time: the canvas's
current destination reference system and the project ellipsoid string
(empty when the project defines none). -/
structure Env where
  canvas_crs : CRS
  project_ellipsoid : String
deriving DecidableEq, Repr, Inhabited

/-- `QgsProject.instance().ellipsoid() or 'WGS84'`: an empty (falsy)
project ellipsoid falls back to WGS84. -/
def resolveEllipsoid (e : String) : String :=
  if e = "" then "WGS84" else e

/-- A configured distance calculator (`QgsDistanceArea` after
`setSourceCrs`/`setEllipsoid`). -/
structure DA where
  sourceCrs : CRS
  ellipsoid : String
deriving DecidableEq, Repr, Inhabited

/-- A `QgsDistanceArea` freshly configured from the given host state:
source reference system from the canvas, ellipsoid from the project with
WGS84 fallback. -/
def freshDA (env : Env) : DA :=
  { sourceCrs := env.canvas_crs, ellipsoid := resolveEllipsoid env.project_ellipsoid }

/-- The black-box geodesic length engine: `da.measureLength` applied to the
two-point polyline geometry. -/
def MeasureFn : Type := DA → Point → Point → ℚ

/-- The black-box reference-system transform service:
`QgsCoordinateTransform(src, dst, project).transform`. -/
def TransformFn : Type := CRS → CRS → Point → Point

/-! ## The session table row -/

/-- One row of the in-memory measurement table; mirrors the Python dict
`{'Line_ID', 'P1x', 'P1y', 'P2x', 'P2y', 'length_m', 'length_nm',
'cum_length_m', 'cum_length_nm'}` with `None` as `Option.none`. -/
structure Row where
  Line_ID : ℕ
  P1x : ℚ
  P1y : ℚ
  P2x : Option ℚ
  P2y : Option ℚ
  length_m : Option ℚ
  length_nm : Option ℚ
  cum_length_m : Option ℚ
  cum_length_nm : Option ℚ
deriving DecidableEq, Repr, Inhabited

/-- The fresh row appended for a new open segment: only `P1` is stored
(rounded to 6 decimal places); everything else is `None`. -/
def firstRow (id : ℕ) (pt : Point) : Row :=
  { Line_ID := id
    P1x := roundTo 6 pt.x
    P1y := roundTo 6 pt.y
    P2x := none
    P2y := none
    length_m := none
    length_nm := none
    cum_length_m := none
    cum_length_nm := none }

/-! ## Tool state -/

/-- The `_MeasureMapTool` instance state: the in-memory table, counters,
measurement flags, the two rubber bands (modelled as their point lists) and
the construction-time distance calculator `self.da`. -/
structure ToolState where
  table_rows : List Row
  n : ℕ
  var_cum_length_m : ℚ
  last_point : Option Point
  click_count : ℕ
  is_measuring : Bool
  temp_rb : List Point
  main_rb : List Point
  da : DA
  point_id_counter : ℕ
deriving DecidableEq, Repr, Inhabited

/-- `_MeasureMapTool.__init__`: empty table, zeroed counters, empty rubber
bands, and a distance calculator configured once from the construction-time
canvas reference system and project ellipsoid. -/
def initTool (env : Env) : ToolState :=
  { table_rows := []
    n := 0
    var_cum_length_m := 0
    last_point := none
    click_count := 0
    is_measuring := false
    temp_rb := []
    main_rb := []
    da := freshDA env
    point_id_counter := 0 }

/-- `start_new_measurement`: reset the session (table, counters,
accumulator, open vertex) and clear both rubber bands. -/
def start_new_measurement (s : ToolState) : ToolState :=
  { s with
    is_measuring := true
    table_rows := []
    n := 0
    point_id_counter := 0
    var_cum_length_m := 0
    click_count := 1
    last_point := none
    main_rb := []
    temp_rb := [] }

/-- In-place update of the list element at index `i`
(`self.table_rows[i] = ...`); out-of-range indices leave the list
unchanged (unreachable in the event flow). -/
def updateAt (i : ℕ) (f : Row → Row) : List Row → List Row
  | [] => []
  | r :: rs =>
    match i with
    | 0 => f r :: rs
    | j + 1 => r :: updateAt j f rs

/-- `_measure_length_dynamic`: compute a length with a `QgsDistanceArea`
freshly resolved from the canvas reference system and project ellipsoid at
call time. -/
def measure_length_dynamic (measure : MeasureFn) (env : Env) (p1 p2 : Point) : ℚ :=
  measure (freshDA env) p1 p2

/-- `calculate_segment(idx)`: read row `idx`, build the segment geometry
from the row's stored coordinates, measure it with the dynamically resolved
calculator, push the running accumulator, and store the independently
rounded length fields back into the row. -/
def calculate_segment (measure : MeasureFn) (env : Env) (idx : ℕ) (s : ToolState) : ToolState :=
  match s.table_rows.get? idx with
  | none => s
  | some r =>
    let p1 : Point := { x := r.P1x, y := r.P1y }
    let p2 : Point := { x := r.P2x.getD 0, y := r.P2y.getD 0 }
    let length_m := measure_length_dynamic measure env p1 p2
    let length_nm := length_m / 1852
    let cum := s.var_cum_length_m + length_m
    let cum_nm := cum / 1852
    let r2 := { r with
      length_m := some (roundTo 1 length_m)
      length_nm := some (roundTo 2 length_nm)
      cum_length_m := some (roundTo 1 cum)
      cum_length_nm := some (roundTo 2 cum_nm) }
    { s with
      table_rows := updateAt idx (fun _ => r2) s.table_rows
      var_cum_length_m := cum }

/-- Mouse buttons delivered with a canvas press event. -/
inductive MouseButton where
  | left
  | right
  | middle
deriving DecidableEq, Repr

/-- `canvasPressEvent`: non-left buttons return immediately; the first
click starts a fresh session and stores the open segment's start vertex;
every further click completes the open segment (fill `P2`, compute, draw)
and opens the next one. -/
def canvasPressEvent (measure : MeasureFn) (env : Env) (button : MouseButton)
    (pt : Point) (s : ToolState) : ToolState :=
  if button ≠ MouseButton.left then s
  else
    let s1 := { s with click_count := s.click_count + 1 }
    if s1.click_count = 1 then
      let s2 := start_new_measurement s1
      let s3 := { s2 with last_point := some pt, point_id_counter := s2.point_id_counter + 1 }
      { s3 with table_rows := s3.table_rows ++ [firstRow s3.point_id_counter pt] }
    else
      let s2 := { s1 with
        table_rows := updateAt s1.n
          (fun r => { r with P2x := some (roundTo 6 pt.x), P2y := some (roundTo 6 pt.y) })
          s1.table_rows }
      let s3 := calculate_segment measure env s2.n s2
      let s4 := { s3 with main_rb := s3.main_rb ++ [s3.last_point.getD pt, pt] }
      let s5 := { s4 with
        last_point := some pt
        point_id_counter := s4.point_id_counter + 1
        n := s4.n + 1 }
      { s5 with table_rows := s5.table_rows ++ [firstRow s5.point_id_counter pt] }

/-- The advisory measurement message pushed to the message bar during a
pointer move: the ephemeral segment length, its nautical-mile conversion,
and the hypothetical cumulative totals (values as computed, before the
f-string display formatting). -/
structure MeasureMsg where
  length_m : ℚ
  length_nm : ℚ
  cum_m : ℚ
  cum_nm : ℚ
deriving DecidableEq, Repr

/-- `canvasMoveEvent`: no-op unless measuring with an open vertex;
otherwise replace the preview rubber band with the line from `last_point`
to the cursor and compute the ephemeral lengths using `self.da`, the
calculator configured at construction time. -/
def canvasMoveEvent (measure : MeasureFn) (_env : Env) (cur_pt : Point)
    (s : ToolState) : ToolState × Option MeasureMsg :=
  match s.last_point with
  | none => (s, none)
  | some lp =>
    if s.is_measuring = false then (s, none)
    else
      let s1 := { s with temp_rb := [lp, cur_pt] }
      let length_m := measure s.da lp cur_pt
      let length_nm := length_m / 1852
      let cum_m := s.var_cum_length_m + length_m
      let cum_nm := cum_m / 1852
      (s1, some { length_m := length_m, length_nm := length_nm, cum_m := cum_m, cum_nm := cum_nm })

/-! ## Finalization -/

/-- One output feature of the final memory layer.  The `Start`/`Stop`
texts `f"{y:.4f}, {x:.4f}"` are modelled as the ordered pair
(latitude, longitude) of 4-decimal-place roundings of the printed values. -/
structure Feature where
  Line_ID : ℕ
  Start : ℚ × ℚ
  Stop : ℚ × ℚ
  length_m : Option ℚ
  length_nm : Option ℚ
  cum_length_m : Option ℚ
  cum_length_nm : Option ℚ
  geometry : Point × Point
deriving DecidableEq, Repr, Inhabited

/-- The final memory layer: its reference system and features. -/
structure Layer where
  crs : CRS
  features : List Feature
deriving DecidableEq, Repr, Inhabited

/-- Build one output feature from a complete row: geometry is the stored
segment; `Start`/`Stop` use the stored endpoints directly when the working
reference system is geographic, and the transform-service image in WGS84
otherwise, formatted latitude first at 4 decimal places. -/
def mkFeature (tr : TransformFn) (crs : CRS) (r : Row) : Feature :=
  let p1 : Point := { x := r.P1x, y := r.P1y }
  let p2 : Point := { x := r.P2x.getD 0, y := r.P2y.getD 0 }
  let q1 := if crs.isGeographic then p1 else tr crs wgs84_crs p1
  let q2 := if crs.isGeographic then p2 else tr crs wgs84_crs p2
  { Line_ID := r.Line_ID
    Start := (roundTo 4 q1.y, roundTo 4 q1.x)
    Stop := (roundTo 4 q2.y, roundTo 4 q2.x)
    length_m := r.length_m
    length_nm := r.length_nm
    cum_length_m := r.cum_length_m
    cum_length_nm := r.cum_length_nm
    geometry := (p1, p2) }

/-- `finish_measurement`: clear the measuring flag, filter the table to
rows with `P2x` present; on an empty filtered list return with no output;
otherwise emit one feature per complete row, reset the whole session state
and clear the committed rubber band. -/
def finish_measurement (tr : TransformFn) (env : Env) (s : ToolState) :
    ToolState × Option Layer :=
  let s1 := { s with is_measuring := false }
  let final_rows := s1.table_rows.filter (fun r => r.P2x.isSome)
  if final_rows.isEmpty then (s1, none)
  else
    let crs := env.canvas_crs
    let feats := final_rows.map (mkFeature tr crs)
    let s2 := { s1 with
      table_rows := []
      n := 0
      point_id_counter := 0
      var_cum_length_m := 0
      click_count := 0
      last_point := none
      is_measuring := false
      main_rb := [] }
    (s2, some { crs := crs, features := feats })

/-- `canvasDoubleClickEvent`: ignored unless measuring; otherwise clear
the preview rubber band and finalize. -/
def canvasDoubleClickEvent (tr : TransformFn) (env : Env) (s : ToolState) :
    ToolState × Option Layer :=
  if s.is_measuring = false then (s, none)
  else finish_measurement tr env { s with temp_rb := [] }

/-- Keyboard keys delivered to `keyPressEvent`. -/
inductive Key where
  | escape
  | other
deriving DecidableEq, Repr

/-- `keyPressEvent`: on Escape, clear both rubber bands and push the
cancellation notice; any other key does nothing. -/
def keyPressEvent (key : Key) (s : ToolState) : ToolState × Option String :=
  if key = Key.escape then
    ({ s with main_rb := [], temp_rb := [] }, some "Measurement cancelled")
  else (s, none)

/-! ## Plugin level: toggling the tool -/

/-- The outer `AdvancedMeasureTool` plugin state: the (lazily created)
inner tool instance, whether the canvas's active map tool is ours, and the
toolbar action's checked state. -/
structure PluginState where
  tool : Option ToolState
  mapToolIsOurs : Bool
  actionChecked : Bool
deriving DecidableEq, Repr, Inhabited

/-- `toggle_tool`: create the inner tool on first use; then either unset it
from the canvas (when it is the active map tool) or set it.  The inner tool
instance itself is never reset or discarded. -/
def toggle_tool (env : Env) (p : PluginState) : PluginState :=
  let p1 := if p.tool.isNone then { p with tool := some (initTool env) } else p
  if p1.mapToolIsOurs then { p1 with mapToolIsOurs := false, actionChecked := false }
  else { p1 with mapToolIsOurs := true, actionChecked := true }

/-! ## Click runs -/

/-- A run of accepted primary-button clicks, each delivered with the host
state current at that click, starting from a freshly constructed tool. -/
def runClicks (measure : MeasureFn) (env0 : Env) (cs : List (Env × Point)) : ToolState :=
  cs.foldl (fun s c => canvasPressEvent measure c.1 MouseButton.left c.2 s) (initTool env0)

/-! ## Closed-form characterization of a click run -/

/-- The point of the `i`-th click (0-based) of a run. -/
def ptAt (cs : List (Env × Point)) (i : ℕ) : Point := (cs.getD i default).2

/-- The host state at the `i`-th click (0-based) of a run. -/
def envAt (cs : List (Env × Point)) (i : ℕ) : Env := (cs.getD i default).1

/-- A point with both coordinates rounded to 6 decimal places, the form in
which vertices are stored at capture time. -/
def round6pt (p : Point) : Point := { x := roundTo 6 p.x, y := roundTo 6 p.y }

/-- The raw (unrounded) length of the `i`-th segment (0-based) of a run:
the geodesic engine applied, with the calculator resolved from the host
state of the click that completes the segment, to the stored (6-decimal
rounded) endpoints. -/
def segLenRaw (measure : MeasureFn) (cs : List (Env × Point)) (i : ℕ) : ℚ :=
  measure (freshDA (envAt cs (i + 1))) (round6pt (ptAt cs i)) (round6pt (ptAt cs (i + 1)))

/-- The running accumulator after the first `k` complete segments: the sum
of the raw (unrounded) segment lengths. -/
def cumRaw (measure : MeasureFn) (cs : List (Env × Point)) : ℕ → ℚ
  | 0 => 0
  | k + 1 => cumRaw measure cs k + segLenRaw measure cs k

/-- The `i`-th complete row (0-based) produced by a click run. -/
def completeRow (measure : MeasureFn) (cs : List (Env × Point)) (i : ℕ) : Row :=
  { Line_ID := i + 1
    P1x := roundTo 6 (ptAt cs i).x
    P1y := roundTo 6 (ptAt cs i).y
    P2x := some (roundTo 6 (ptAt cs (i + 1)).x)
    P2y := some (roundTo 6 (ptAt cs (i + 1)).y)
    length_m := some (roundTo 1 (segLenRaw measure cs i))
    length_nm := some (roundTo 2 (segLenRaw measure cs i / 1852))
    cum_length_m := some (roundTo 1 (cumRaw measure cs (i + 1)))
    cum_length_nm := some (roundTo 2 (cumRaw measure cs (i + 1) / 1852)) }

/-- The state a nonempty click run is claimed to reach: `n - 1` complete
rows followed by one open row, counters at `n`, the accumulator holding
the raw cumulative length, and the committed rubber band holding the raw
(unrounded) clicked points pairwise. -/
def expectedState (measure : MeasureFn) (env0 : Env) (cs : List (Env × Point)) : ToolState :=
  let n := cs.length
  { table_rows :=
      (List.range (n - 1)).map (completeRow measure cs) ++ [firstRow n (ptAt cs (n - 1))]
    n := n - 1
    var_cum_length_m := cumRaw measure cs (n - 1)
    last_point := some (ptAt cs (n - 1))
    click_count := n
    is_measuring := true
    temp_rb := []
    main_rb := (List.range (n - 1)).flatMap (fun i => [ptAt cs i, ptAt cs (i + 1)])
    da := freshDA env0
    point_id_counter := n }

/-! ## Rounding lemmas -/

lemma pyRoundInt_floor_le (q : ℚ) : ⌊q⌋ ≤ pyRoundInt q := by
  simp only [pyRoundInt]
  split_ifs <;> omega

lemma pyRoundInt_le_floor_add_one (q : ℚ) : pyRoundInt q ≤ ⌊q⌋ + 1 := by
  simp only [pyRoundInt]
  split_ifs <;> omega

/-- Round-half-to-even is monotone. -/
lemma pyRoundInt_mono {a b : ℚ} (hab : a ≤ b) : pyRoundInt a ≤ pyRoundInt b := by
  rcases lt_or_eq_of_le (Int.floor_le_floor hab) with hf | hf
  · calc pyRoundInt a ≤ ⌊a⌋ + 1 := pyRoundInt_le_floor_add_one a
      _ ≤ ⌊b⌋ := by omega
      _ ≤ pyRoundInt b := pyRoundInt_floor_le b
  · simp only [pyRoundInt, hf]
    have hq : (⌊b⌋ : ℚ) = (⌊b⌋ : ℚ) := rfl
    split_ifs <;> first | omega | linarith

/-- Rounding to `d` decimal places is monotone. -/
lemma roundTo_mono (d : ℕ) {a b : ℚ} (h : a ≤ b) : roundTo d a ≤ roundTo d b := by
  unfold roundTo
  have h1 : pyRoundInt (a * 10 ^ d) ≤ pyRoundInt (b * 10 ^ d) :=
    pyRoundInt_mono (mul_le_mul_of_nonneg_right h (by positivity))
  have h2 : (pyRoundInt (a * 10 ^ d) : ℚ) ≤ (pyRoundInt (b * 10 ^ d) : ℚ) := by
    exact_mod_cast h1
  gcongr

/-! ## List helper lemmas -/

lemma updateAt_append_length (l1 : List Row) (f : Row → Row) (r : Row) (l2 : List Row)
    {i : ℕ} (hi : i = l1.length) : updateAt i f (l1 ++ r :: l2) = l1 ++ f r :: l2 := by
  subst hi
  induction l1 with
  | nil => rfl
  | cons a l ih => simpa [updateAt] using ih

lemma get?_append_length {α : Type} (l1 : List α) (r : α) (l2 : List α)
    {i : ℕ} (hi : i = l1.length) : (l1 ++ r :: l2).get? i = some r := by
  subst hi
  induction l1 with
  | nil => rfl
  | cons a l ih => simpa using ih

lemma flatMap_congr {α β : Type} {l : List α} {f g : α → List β}
    (h : ∀ a ∈ l, f a = g a) : l.flatMap f = l.flatMap g := by
  induction l with
  | nil => rfl
  | cons a t ih =>
    rw [List.flatMap_cons, List.flatMap_cons, h a (by simp),
        ih (fun x hx => h x (by simp [hx]))]

/-! ## Stability of the run descriptors under appending a click -/

lemma ptAt_append_left (cs l : List (Env × Point)) {i : ℕ} (h : i < cs.length) :
    ptAt (cs ++ l) i = ptAt cs i := by
  unfold ptAt
  rw [List.getD_append _ _ _ _ h]

lemma envAt_append_left (cs l : List (Env × Point)) {i : ℕ} (h : i < cs.length) :
    envAt (cs ++ l) i = envAt cs i := by
  unfold envAt
  rw [List.getD_append _ _ _ _ h]

lemma ptAt_append_length (cs : List (Env × Point)) (c : Env × Point)
    {i : ℕ} (hi : i = cs.length) : ptAt (cs ++ [c]) i = c.2 := by
  subst hi
  unfold ptAt
  rw [List.getD_append_right cs [c] _ _ le_rfl, Nat.sub_self]
  rfl

lemma envAt_append_length (cs : List (Env × Point)) (c : Env × Point)
    {i : ℕ} (hi : i = cs.length) : envAt (cs ++ [c]) i = c.1 := by
  subst hi
  unfold envAt
  rw [List.getD_append_right cs [c] _ _ le_rfl, Nat.sub_self]
  rfl

lemma segLenRaw_append (measure : MeasureFn) (cs l : List (Env × Point)) {i : ℕ}
    (h : i + 1 < cs.length) : segLenRaw measure (cs ++ l) i = segLenRaw measure cs i := by
  unfold segLenRaw
  rw [ptAt_append_left cs l (by omega), ptAt_append_left cs l h, envAt_append_left cs l h]

lemma cumRaw_append (measure : MeasureFn) (cs l : List (Env × Point)) {k : ℕ}
    (h : k < cs.length) : cumRaw measure (cs ++ l) k = cumRaw measure cs k := by
  induction k with
  | zero => rfl
  | succ k ih =>
    rw [cumRaw, cumRaw, ih (by omega), segLenRaw_append measure cs l h]

lemma completeRow_append (measure : MeasureFn) (cs l : List (Env × Point)) {i : ℕ}
    (h : i + 1 < cs.length) : completeRow measure (cs ++ l) i = completeRow measure cs i := by
  unfold completeRow
  rw [ptAt_append_left cs l (by omega), ptAt_append_left cs l h,
      segLenRaw_append measure cs l h, cumRaw_append measure cs l h]

/-- A single click from a freshly constructed tool reaches the closed form. -/
lemma runClicks_single (measure : MeasureFn) (env0 : Env) (c : Env × Point) :
    runClicks measure env0 [c] = expectedState measure env0 [c] := by
  simp [runClicks, canvasPressEvent, initTool, start_new_measurement, expectedState,
        ptAt, cumRaw]

/-- One left click from a nonempty-run state: the closed form is preserved. -/
lemma press_step (measure : MeasureFn) (env0 : Env) (cs : List (Env × Point)) (c : Env × Point)
    (h : cs ≠ []) :
    canvasPressEvent measure c.1 MouseButton.left c.2 (expectedState measure env0 cs)
      = expectedState measure env0 (cs ++ [c]) := by
  rcases List.eq_nil_or_concat' cs with rfl | ⟨cs0, b, rfl⟩
  · exact absurd rfl h
  have hb : ptAt (cs0 ++ [b]) cs0.length = b.2 := ptAt_append_length cs0 b rfl
  simp only [canvasPressEvent, expectedState, start_new_measurement, calculate_segment,
    measure_length_dynamic, List.length_append, List.length_cons, List.length_nil,
    ne_eq, not_true_eq_false, if_false, Nat.zero_add, Nat.add_zero, Nat.add_sub_cancel]
  have hcc : ¬ (cs0.length + 1 + 1 = 1) := by omega
  simp only [hcc, if_false]
  rw [updateAt_append_length _ _ _ _ (by simp)]
  rw [get?_append_length _ _ _ (by simp)]
  dsimp only [firstRow]
  rw [updateAt_append_length _ _ _ _ (by simp)]
  have hpt : ptAt (cs0 ++ [b] ++ [c]) (cs0.length + 1) = c.2 :=
    ptAt_append_length (cs0 ++ [b]) c (by simp)
  have henv : envAt (cs0 ++ [b] ++ [c]) (cs0.length + 1) = c.1 :=
    envAt_append_length (cs0 ++ [b]) c (by simp)
  have hptm : ptAt (cs0 ++ [b] ++ [c]) cs0.length = ptAt (cs0 ++ [b]) cs0.length :=
    ptAt_append_left _ _ (by simp)
  have hseg : segLenRaw measure (cs0 ++ [b] ++ [c]) cs0.length
      = measure (freshDA c.1)
          { x := roundTo 6 (ptAt (cs0 ++ [b]) cs0.length).x,
            y := roundTo 6 (ptAt (cs0 ++ [b]) cs0.length).y }
          { x := roundTo 6 c.2.x, y := roundTo 6 c.2.y } := by
    unfold segLenRaw round6pt
    rw [hpt, henv, hptm]
  have hcum : cumRaw measure (cs0 ++ [b] ++ [c]) cs0.length
      = cumRaw measure (cs0 ++ [b]) cs0.length := cumRaw_append measure _ _ (by simp)
  have hmap : (List.range cs0.length).map (completeRow measure (cs0 ++ [b] ++ [c]))
      = (List.range cs0.length).map (completeRow measure (cs0 ++ [b])) :=
    List.map_congr_left (fun i hi => completeRow_append measure _ _
      (by simp only [List.mem_range] at hi; simp; omega))
  have hfm : (List.range cs0.length).flatMap
        (fun i => [ptAt (cs0 ++ [b] ++ [c]) i, ptAt (cs0 ++ [b] ++ [c]) (i + 1)])
      = (List.range cs0.length).flatMap
        (fun i => [ptAt (cs0 ++ [b]) i, ptAt (cs0 ++ [b]) (i + 1)]) := by
    apply flatMap_congr
    intro i hi
    simp only [List.mem_range] at hi
    rw [@ptAt_append_left (cs0 ++ [b]) [c] i (by simp; omega),
        @ptAt_append_left (cs0 ++ [b]) [c] (i + 1) (by simp; omega)]
  have hstep : cumRaw measure (cs0 ++ [b] ++ [c]) (cs0.length + 1)
      = cumRaw measure (cs0 ++ [b] ++ [c]) cs0.length
        + segLenRaw measure (cs0 ++ [b] ++ [c]) cs0.length := rfl
  simp only [ToolState.mk.injEq, Option.getD_some, and_true, true_and]
  refine ⟨?_, ?_, ?_, ?_⟩
  · rw [List.range_succ, List.map_append, hmap, hpt, List.map_singleton]
    simp only [completeRow, hptm, hpt, hseg, round6pt, hstep, hcum]
  · rw [hstep, hcum, hseg]
  · rw [hpt]
  · rw [List.range_succ, List.flatMap_append, hfm, List.flatMap_cons, hptm, hpt]
    simp

/-- Closed form of a run of accepted clicks: after `n ≥ 1` left clicks the
tool state consists of the `n - 1` complete rows, one open row, counters at
`n`, the raw cumulative accumulator, and the committed polyline. -/
lemma runClicks_spec (measure : MeasureFn) (env0 : Env) (cs : List (Env × Point))
    (h : cs ≠ []) : runClicks measure env0 cs = expectedState measure env0 cs := by
  induction cs using List.reverseRecOn with
  | nil => exact absurd rfl h
  | append_singleton cs0 c ih =>
    rcases eq_or_ne cs0 [] with rfl | hne
    · simpa using runClicks_single measure env0 c
    · have hfold : runClicks measure env0 (cs0 ++ [c])
          = canvasPressEvent measure c.1 MouseButton.left c.2 (runClicks measure env0 cs0) := by
        simp [runClicks, List.foldl_append]
      rw [hfold, ih hne]
      exact press_step measure env0 cs0 c hne

/-! ## Further helper lemmas -/

lemma get?_updateAt (f : Row → Row) : ∀ (l : List Row) (i : ℕ),
    (updateAt i f l).get? i = (l.get? i).map f
  | [], i => by simp [updateAt]
  | r :: rs, 0 => rfl
  | r :: rs, i + 1 => by simpa [updateAt] using get?_updateAt f rs i

lemma expected_get_complete (measure : MeasureFn) (env0 : Env) (cs : List (Env × Point))
    {k : ℕ} (hk : k < cs.length - 1) :
    (expectedState measure env0 cs).table_rows.get? k = some (completeRow measure cs k) := by
  simp only [expectedState]
  rw [List.get?_eq_getElem?, List.getElem?_append_left (by simpa using hk),
      List.getElem?_map, List.getElem?_range hk]
  rfl

lemma expected_filter_complete (measure : MeasureFn) (env0 : Env) (cs : List (Env × Point)) :
    (expectedState measure env0 cs).table_rows.filter (fun r => r.P2x.isSome)
      = (List.range (cs.length - 1)).map (completeRow measure cs) := by
  simp only [expectedState]
  rw [List.filter_append, List.filter_map]
  have h1 : List.filter ((fun r => r.P2x.isSome) ∘ completeRow measure cs)
      (List.range (cs.length - 1)) = List.range (cs.length - 1) :=
    List.filter_eq_self.2 (fun a _ => by simp [completeRow, Function.comp])
  rw [h1]
  simp [firstRow]

lemma cumRaw_eq_sum (measure : MeasureFn) (cs : List (Env × Point)) (k : ℕ) :
    cumRaw measure cs k = ∑ i in Finset.range k, segLenRaw measure cs i := by
  induction k with
  | zero => simp [cumRaw]
  | succ k ih => rw [cumRaw, ih, Finset.sum_range_succ]

lemma cumRaw_mono (measure : MeasureFn) (cs : List (Env × Point))
    (hm : ∀ da p q, 0 ≤ measure da p q) {j k : ℕ} (h : j ≤ k) :
    cumRaw measure cs j ≤ cumRaw measure cs k := by
  induction k with
  | zero =>
    have : j = 0 := by omega
    simp [this]
  | succ k ih =>
    rcases Nat.eq_or_lt_of_le h with rfl | hlt
    · exact le_rfl
    · calc cumRaw measure cs j ≤ cumRaw measure cs k := ih (by omega)
        _ ≤ cumRaw measure cs (k + 1) := le_add_of_nonneg_right (hm _ _ _)

/-! ## Concrete fixtures used in witnesses and counterexamples -/

/-- A geographic reference system fixture. -/
def crsGeo : CRS := { authid := "EPSG:4326", isGeographic := true }

/-- A projected (non-geographic) reference system fixture. -/
def crsProj : CRS := { authid := "EPSG:32633", isGeographic := false }

/-- Host state with the geographic reference system and no project ellipsoid. -/
def envGeo : Env := { canvas_crs := crsGeo, project_ellipsoid := "" }

/-- Host state with the projected reference system and no project ellipsoid. -/
def envProj : Env := { canvas_crs := crsProj, project_ellipsoid := "" }

/-- A constant length engine: every segment measures 5 m. -/
def mConst : MeasureFn := fun _ _ _ => 5

/-- A length engine sensitive to the calculator's source reference system. -/
def mCrs : MeasureFn := fun da _ _ => if da.sourceCrs.isGeographic then 100 else 200

/-- A length engine amplifying the second endpoint's x coordinate, exposing
whether computation inputs were rounded. -/
def mAmp : MeasureFn := fun _ _ q => q.x * 10000000

/-- The identity transform service fixture. -/
def trId : TransformFn := fun _ _ p => p

/-- A three-click run in the geographic host state. -/
def cs3 : List (Env × Point) :=
  [(envGeo, { x := 0, y := 0 }), (envGeo, { x := 1, y := 0 }), (envGeo, { x := 2, y := 0 })]

/-- A two-click run in the geographic host state. -/
def cs2geo : List (Env × Point) :=
  [(envGeo, { x := 10, y := 20 }), (envGeo, { x := 11, y := 21 })]

/-- A one-click run: a session whose table holds a single open segment. -/
def sOne : ToolState := runClicks mConst envGeo [(envGeo, { x := 3, y := 4 })]

/-! ## Claims -/

/-- C4: processing the escape key (`cancel()`) clears both the committed
and the preview overlay and leaves every other part of the session state
unchanged: table, id counter, accumulator, click counter, open-segment
vertex, and measuring flag are identical before and after. -/
theorem c4_cancel_visual_only (s : ToolState) :
    (keyPressEvent Key.escape s).1.main_rb = [] ∧
    (keyPressEvent Key.escape s).1.temp_rb = [] ∧
    (keyPressEvent Key.escape s).1.table_rows = s.table_rows ∧
    (keyPressEvent Key.escape s).1.n = s.n ∧
    (keyPressEvent Key.escape s).1.point_id_counter = s.point_id_counter ∧
    (keyPressEvent Key.escape s).1.var_cum_length_m = s.var_cum_length_m ∧
    (keyPressEvent Key.escape s).1.click_count = s.click_count ∧
    (keyPressEvent Key.escape s).1.last_point = s.last_point ∧
    (keyPressEvent Key.escape s).1.is_measuring = s.is_measuring ∧
    (keyPressEvent Key.escape s).1.da = s.da ∧
    (keyPressEvent Key.escape s).2 = some "Measurement cancelled" := by
  simp [keyPressEvent]

/-- C10: a canvas press with any non-primary button returns immediately
and the entire tool state is unchanged (no right-click undo exists). -/
theorem c10_non_primary_click_noop (measure : MeasureFn) (env : Env) (b : MouseButton)
    (pt : Point) (s : ToolState) (hb : b ≠ MouseButton.left) :
    canvasPressEvent measure env b pt s = s := by
  unfold canvasPressEvent
  rw [if_pos hb]

/-- Witness for C10 at a concrete right-button press. -/
theorem c10_witness :
    canvasPressEvent mConst envGeo MouseButton.right { x := 3, y := 4 } sOne = sOne :=
  c10_non_primary_click_noop mConst envGeo MouseButton.right { x := 3, y := 4 } sOne
    (by decide)

/-- C5: for every session of `n ≥ 2` accepted primary-button clicks (no
finalize or teardown in between), the table holds exactly `n - 1` complete
segments plus one open segment, the complete segments' ids are the
consecutive integers `1..n-1` in chronological order, and the id counter is
incremented exactly once per accepted click. -/
theorem c5_table_shape (measure : MeasureFn) (env0 : Env) (cs : List (Env × Point))
    (h2 : 2 ≤ cs.length) :
    ((runClicks measure env0 cs).table_rows.filter (fun r => r.P2x.isSome)).length
        = cs.length - 1 ∧
    ((runClicks measure env0 cs).table_rows.filter (fun r => r.P2x.isSome)).map Row.Line_ID
        = (List.range (cs.length - 1)).map (fun i => i + 1) ∧
    ((runClicks measure env0 cs).table_rows.filter (fun r => !r.P2x.isSome)).length = 1 ∧
    ∀ m, 1 ≤ m → m ≤ cs.length →
      (runClicks measure env0 (cs.take m)).point_id_counter = m := by
  have hne : cs ≠ [] := by
    intro hcs
    rw [hcs] at h2
    simp at h2
  rw [runClicks_spec measure env0 cs hne]
  refine ⟨?_, ?_, ?_, ?_⟩
  · rw [expected_filter_complete]
    simp
  · rw [expected_filter_complete, List.map_map]
    exact List.map_congr_left (fun i _ => by simp [completeRow, Function.comp])
  · simp only [expectedState]
    rw [List.filter_append, List.filter_map]
    have h1 : List.filter ((fun r => !r.P2x.isSome) ∘ completeRow measure cs)
        (List.range (cs.length - 1)) = [] := by
      rw [List.filter_eq_nil_iff]
      intro a _
      simp [completeRow, Function.comp]
    rw [h1]
    simp [firstRow]
  · intro m h1m hmn
    have htn : cs.take m ≠ [] :=
      List.length_pos.mp (by rw [List.length_take]; exact lt_min (by omega) (by omega))
    rw [runClicks_spec measure env0 (cs.take m) htn]
    simp only [expectedState, List.length_take]
    exact Nat.min_eq_left hmn

/-- Witness for C5 on a concrete three-click run. -/
theorem c5_witness :
    ((runClicks mConst envGeo cs3).table_rows.filter (fun r => r.P2x.isSome)).length = 2 ∧
    ((runClicks mConst envGeo cs3).table_rows.filter (fun r => r.P2x.isSome)).map Row.Line_ID
        = [1, 2] ∧
    ((runClicks mConst envGeo cs3).table_rows.filter (fun r => !r.P2x.isSome)).length = 1 ∧
    (runClicks mConst envGeo (cs3.take 2)).point_id_counter = 2 := by
  obtain ⟨h1, h2, h3, h4⟩ := c5_table_shape mConst envGeo cs3 (by decide)
  refine ⟨?_, ?_, h3, h4 2 (by decide) (by decide)⟩
  · rw [h1]
    decide
  · rw [h2]
    decide

/-- C6: for every complete segment `k`, the stored `cum_length_m` is the
1-decimal rounding of the running sum of the raw (unrounded) lengths of
segments `1..k`, and the stored cumulative values are monotonically
non-decreasing in `k` (given a non-negative length engine). -/
theorem c6_cumulative (measure : MeasureFn) (env0 : Env) (cs : List (Env × Point))
    (hm : ∀ da p q, 0 ≤ measure da p q) (h2 : 2 ≤ cs.length) :
    (∀ k r, k < cs.length - 1 →
      (runClicks measure env0 cs).table_rows.get? k = some r →
      r.length_m = some (roundTo 1 (segLenRaw measure cs k)) ∧
      r.cum_length_m
        = some (roundTo 1 (∑ i in Finset.range (k + 1), segLenRaw measure cs i))) ∧
    (∀ j k rj rk, j ≤ k → k < cs.length - 1 →
      (runClicks measure env0 cs).table_rows.get? j = some rj →
      (runClicks measure env0 cs).table_rows.get? k = some rk →
      rj.cum_length_m.getD 0 ≤ rk.cum_length_m.getD 0) := by
  have hne : cs ≠ [] := by
    intro hcs
    rw [hcs] at h2
    simp at h2
  rw [runClicks_spec measure env0 cs hne]
  constructor
  · intro k r hk hget
    rw [expected_get_complete measure env0 cs hk] at hget
    simp only [Option.some.injEq] at hget
    subst hget
    refine ⟨rfl, ?_⟩
    rw [← cumRaw_eq_sum]
    rfl
  · intro j k rj rk hjk hk hgj hgk
    rw [expected_get_complete measure env0 cs (by omega)] at hgj
    rw [expected_get_complete measure env0 cs hk] at hgk
    simp only [Option.some.injEq] at hgj hgk
    subst hgj
    subst hgk
    simp only [completeRow, Option.getD_some]
    exact roundTo_mono 1 (cumRaw_mono measure cs hm (by omega))

/-- The second complete row of the concrete three-click run. -/
def c6row : Row :=
  { Line_ID := 2
    P1x := 1
    P1y := 0
    P2x := some 2
    P2y := some 0
    length_m := some 5
    length_nm := some 0
    cum_length_m := some 10
    cum_length_nm := some (1/100) }

/-- Witness for C6 on a concrete three-click run with a constant engine. -/
theorem c6_witness :
    c6row.length_m = some (roundTo 1 (segLenRaw mConst cs3 1)) ∧
    c6row.cum_length_m
      = some (roundTo 1 (∑ i in Finset.range 2, segLenRaw mConst cs3 i)) := by
  have hget : (runClicks mConst envGeo cs3).table_rows.get? 1 = some c6row := by
    rw [runClicks_spec mConst envGeo cs3 (by decide),
        expected_get_complete mConst envGeo cs3 (by decide)]
    norm_num [completeRow, c6row, segLenRaw, cumRaw, ptAt, envAt, round6pt, cs3, mConst,
      roundTo, pyRoundInt]
  exact (c6_cumulative mConst envGeo cs3 (fun _ _ _ => by norm_num [mConst])
    (by decide)).1 1 c6row (by decide) hget

/-- C1 as stated is false: `finish()` on a table with zero complete
segments returns early and does not reset the session state.  After a
single click, finishing produces no output but leaves the table nonempty
and the counters and open vertex untouched. -/
theorem c1_counterexample :
    (finish_measurement trId envGeo sOne).2 = none ∧
    (finish_measurement trId envGeo sOne).1.table_rows ≠ [] ∧
    (finish_measurement trId envGeo sOne).1.point_id_counter = 1 ∧
    (finish_measurement trId envGeo sOne).1.click_count = 1 ∧
    (finish_measurement trId envGeo sOne).1.last_point ≠ none := by
  decide

/-- C1 amended: when the filtered list of complete segments is empty,
`finish()` performs no output and returns with only the measuring flag
cleared; the segment table, id counter, cumulative accumulator, click
counter and open-segment vertex are left unchanged (no reset occurs). -/
theorem c1_amended_finish_empty_noop (tr : TransformFn) (env : Env) (s : ToolState)
    (h : s.table_rows.filter (fun r => r.P2x.isSome) = []) :
    finish_measurement tr env s = ({ s with is_measuring := false }, none) := by
  unfold finish_measurement
  simp [h]

/-- Witness for the amended C1 on a one-click session. -/
theorem c1_witness :
    finish_measurement trId envGeo sOne = ({ sOne with is_measuring := false }, none) :=
  c1_amended_finish_empty_noop trId envGeo sOne (by decide)

/-- A one-click session built in the geographic host state with the
reference-system-sensitive engine. -/
def sPrev : ToolState := runClicks mCrs envGeo [(envGeo, { x := 0, y := 0 })]

/-- C2 as stated is false: the ephemeral preview length computed on
pointer-move uses the calculator cached at tool construction, not one
resolved fresh at call time.  After the canvas reference system changes
from geographic to projected, the preview still measures with the
construction-time geographic calculator (100), not the call-time projected
one (200). -/
theorem c2_counterexample :
    ((canvasMoveEvent mCrs envProj { x := 1, y := 1 } sPrev).2).map MeasureMsg.length_m
        = some 100 ∧
    mCrs (freshDA envProj) { x := 0, y := 0 } { x := 1, y := 1 } = 200 ∧
    (100 : ℚ) ≠ 200 := by
  decide

/-- C2 amended: committed segment lengths (`calculate_segment`) use a
calculator resolved fresh at call time from the canvas reference system
and the project ellipsoid (WGS84 fallback), but the ephemeral preview
length on pointer-move uses the calculator cached at tool construction
(`self.da`), so a preview after a mid-session reference-system change
still measures in the construction-time reference system. -/
theorem c2_amended (measure : MeasureFn) (env : Env) (s : ToolState)
    (idx : ℕ) (r : Row) (hr : s.table_rows.get? idx = some r)
    (lp : Point) (hlp : s.last_point = some lp) (hm : s.is_measuring = true) (pt : Point) :
    ((calculate_segment measure env idx s).table_rows.get? idx
        = some { r with
            length_m := some (roundTo 1 (measure (freshDA env)
                { x := r.P1x, y := r.P1y } { x := r.P2x.getD 0, y := r.P2y.getD 0 })),
            length_nm := some (roundTo 2 (measure (freshDA env)
                { x := r.P1x, y := r.P1y } { x := r.P2x.getD 0, y := r.P2y.getD 0 } / 1852)),
            cum_length_m := some (roundTo 1 (s.var_cum_length_m + measure (freshDA env)
                { x := r.P1x, y := r.P1y } { x := r.P2x.getD 0, y := r.P2y.getD 0 })),
            cum_length_nm := some (roundTo 2 ((s.var_cum_length_m + measure (freshDA env)
                { x := r.P1x, y := r.P1y } { x := r.P2x.getD 0, y := r.P2y.getD 0 }) / 1852)) }) ∧
    ((canvasMoveEvent measure env pt s).2
        = some { length_m := measure s.da lp pt
                 length_nm := measure s.da lp pt / 1852
                 cum_m := s.var_cum_length_m + measure s.da lp pt
                 cum_nm := (s.var_cum_length_m + measure s.da lp pt) / 1852 }) := by
  constructor
  · unfold calculate_segment
    rw [hr]
    dsimp only [measure_length_dynamic]
    rw [get?_updateAt, hr]
    rfl
  · unfold canvasMoveEvent
    rw [hlp, hm]
    dsimp only
    norm_num

/-- The single open row of the one-click session `sPrev`. -/
def c2row : Row :=
  { Line_ID := 1
    P1x := 0
    P1y := 0
    P2x := none
    P2y := none
    length_m := none
    length_nm := none
    cum_length_m := none
    cum_length_nm := none }

/-- The explicit value of `sPrev`. -/
def sPrevVal : ToolState :=
  { table_rows := [c2row]
    n := 0
    var_cum_length_m := 0
    last_point := some { x := 0, y := 0 }
    click_count := 1
    is_measuring := true
    temp_rb := []
    main_rb := []
    da := { sourceCrs := crsGeo, ellipsoid := "WGS84" }
    point_id_counter := 1 }

/-- Evaluation of the one-click session. -/
lemma sPrev_eq : sPrev = sPrevVal := by
  rw [sPrev, runClicks_single]
  norm_num [expectedState, sPrevVal, c2row, ptAt, cumRaw, firstRow, roundTo, pyRoundInt,
    envGeo, freshDA, resolveEllipsoid, crsGeo]

/-- Witness for the amended C2 at a concrete state and host environment. -/
theorem c2_witness :
    ((calculate_segment mCrs envProj 0 sPrev).table_rows.get? 0
        = some { c2row with
            length_m := some (roundTo 1 (mCrs (freshDA envProj)
                { x := c2row.P1x, y := c2row.P1y }
                { x := c2row.P2x.getD 0, y := c2row.P2y.getD 0 })),
            length_nm := some (roundTo 2 (mCrs (freshDA envProj)
                { x := c2row.P1x, y := c2row.P1y }
                { x := c2row.P2x.getD 0, y := c2row.P2y.getD 0 } / 1852)),
            cum_length_m := some (roundTo 1 (sPrev.var_cum_length_m + mCrs (freshDA envProj)
                { x := c2row.P1x, y := c2row.P1y }
                { x := c2row.P2x.getD 0, y := c2row.P2y.getD 0 })),
            cum_length_nm := some (roundTo 2 ((sPrev.var_cum_length_m + mCrs (freshDA envProj)
                { x := c2row.P1x, y := c2row.P1y }
                { x := c2row.P2x.getD 0, y := c2row.P2y.getD 0 }) / 1852)) }) ∧
    ((canvasMoveEvent mCrs envProj { x := 1, y := 1 } sPrev).2
        = some { length_m := mCrs sPrev.da { x := 0, y := 0 } { x := 1, y := 1 }
                 length_nm := mCrs sPrev.da { x := 0, y := 0 } { x := 1, y := 1 } / 1852
                 cum_m := sPrev.var_cum_length_m
                   + mCrs sPrev.da { x := 0, y := 0 } { x := 1, y := 1 }
                 cum_nm := (sPrev.var_cum_length_m
                   + mCrs sPrev.da { x := 0, y := 0 } { x := 1, y := 1 }) / 1852 }) := by
  have hr : sPrev.table_rows.get? 0 = some c2row := by rw [sPrev_eq]; rfl
  have hlp : sPrev.last_point = some { x := 0, y := 0 } := by rw [sPrev_eq]; rfl
  have hm : sPrev.is_measuring = true := by rw [sPrev_eq]; rfl
  exact c2_amended mCrs envProj sPrev 0 c2row hr { x := 0, y := 0 } hlp hm { x := 1, y := 1 }

/-- A plugin state whose tool is active and holds an in-progress session. -/
def pActive : PluginState :=
  { tool := some sOne, mapToolIsOurs := true, actionChecked := true }

/-- C3 as stated is false: toggling the active tool does not tear down the
session.  With an in-progress one-click session, deactivating and then
reactivating leaves the same tool instance with its nonempty table and
click counter intact — the subsequent activation does not begin with a
fresh, empty session. -/
theorem c3_counterexample :
    (toggle_tool envGeo pActive).tool.map ToolState.table_rows ≠ some [] ∧
    (toggle_tool envGeo (toggle_tool envGeo pActive)).tool.map ToolState.table_rows
        ≠ some [] ∧
    (toggle_tool envGeo (toggle_tool envGeo pActive)).mapToolIsOurs = true ∧
    (toggle_tool envGeo (toggle_tool envGeo pActive)).tool.map ToolState.click_count
        = some 1 := by
  decide

/-- C3 amended: activating the tool while it is already active merely
unsets it as the canvas map tool and unchecks the action; the tool
instance and all in-progress session state are retained unchanged, and a
subsequent activation reuses the same instance (no reset). -/
theorem c3_amended (env : Env) (p : PluginState) (t : ToolState)
    (ht : p.tool = some t) (ha : p.mapToolIsOurs = true) :
    toggle_tool env p = { p with mapToolIsOurs := false, actionChecked := false } ∧
    toggle_tool env (toggle_tool env p)
      = { p with mapToolIsOurs := true, actionChecked := true } ∧
    (toggle_tool env (toggle_tool env p)).tool = some t := by
  have hnone : p.tool.isNone = false := by rw [ht]; rfl
  have h1 : toggle_tool env p = { p with mapToolIsOurs := false, actionChecked := false } := by
    unfold toggle_tool
    simp [hnone, ha]
  have h2 : toggle_tool env (toggle_tool env p)
      = { p with mapToolIsOurs := true, actionChecked := true } := by
    rw [h1]
    unfold toggle_tool
    simp [hnone]
  refine ⟨h1, h2, ?_⟩
  rw [h2]
  exact ht

/-- Witness for the amended C3 on the concrete active plugin state. -/
theorem c3_witness :
    toggle_tool envGeo pActive
        = { pActive with mapToolIsOurs := false, actionChecked := false } ∧
    toggle_tool envGeo (toggle_tool envGeo pActive)
        = { pActive with mapToolIsOurs := true, actionChecked := true } ∧
    (toggle_tool envGeo (toggle_tool envGeo pActive)).tool = some sOne :=
  c3_amended envGeo pActive sOne rfl rfl

/-- C7: for every completed segment the stored nautical-mile value is the
2-decimal rounding of exactly `length_m / 1852` computed on the unrounded
length, the metric values are rounded to 1 decimal and the nautical-mile
values to 2 decimals independently, and finalization emits exactly these
stored rounded values, one feature per complete segment. -/
theorem c7_rounding_pipeline (measure : MeasureFn) (tr : TransformFn) (env0 envF : Env)
    (cs : List (Env × Point)) (h2 : 2 ≤ cs.length) :
    ∃ layer, (finish_measurement tr envF (runClicks measure env0 cs)).2 = some layer ∧
      layer.features.length = cs.length - 1 ∧
      ∀ k f, layer.features.get? k = some f → k < cs.length - 1 →
        f.length_m = some (roundTo 1 (segLenRaw measure cs k)) ∧
        f.length_nm = some (roundTo 2 (segLenRaw measure cs k / 1852)) ∧
        f.cum_length_m = some (roundTo 1 (cumRaw measure cs (k + 1))) ∧
        f.cum_length_nm = some (roundTo 2 (cumRaw measure cs (k + 1) / 1852)) := by
  have hne : cs ≠ [] := by
    intro hcs
    rw [hcs] at h2
    simp at h2
  rw [runClicks_spec measure env0 cs hne]
  simp only [finish_measurement]
  rw [expected_filter_complete measure env0 cs]
  have hemp : ((List.range (cs.length - 1)).map (completeRow measure cs)).isEmpty = false := by
    simp [List.isEmpty_eq_false, List.range_eq_nil]
    omega
  rw [hemp]
  simp only [Bool.false_eq_true, if_false]
  refine ⟨_, rfl, ?_, ?_⟩
  · simp
  · intro k f hf hk
    rw [List.get?_eq_getElem?, List.getElem?_map, List.getElem?_map,
        List.getElem?_range hk] at hf
    simp only [Option.map_some', Option.map_some, Option.some.injEq] at hf
    subst hf
    exact ⟨rfl, rfl, rfl, rfl⟩

/-- Witness for C7 on the concrete three-click run. -/
theorem c7_witness :
    ∃ layer, (finish_measurement trId envGeo (runClicks mConst envGeo cs3)).2 = some layer ∧
      layer.features.length = 2 := by
  obtain ⟨layer, hl, hlen, hfields⟩ :=
    c7_rounding_pipeline mConst trId envGeo envGeo cs3 (by decide)
  refine ⟨layer, hl, ?_⟩
  rw [hlen]
  decide

/-- C8: in `finish()`, when the working reference system is geographic the
Start/Stop texts are the stored vertex coordinates formatted latitude
first at 4 decimal places with no transform applied; otherwise each
endpoint is first transformed to the WGS84 geographic reference system and
the transformed values are formatted the same way. -/
theorem c8_start_stop_format (tr : TransformFn) (env : Env) (s : ToolState) (layer : Layer)
    (hl : (finish_measurement tr env s).2 = some layer) :
    ∀ k f r, layer.features.get? k = some f →
      (s.table_rows.filter (fun r => r.P2x.isSome)).get? k = some r →
      (env.canvas_crs.isGeographic = true →
        f.Start = (roundTo 4 r.P1y, roundTo 4 r.P1x) ∧
        f.Stop = (roundTo 4 (r.P2y.getD 0), roundTo 4 (r.P2x.getD 0))) ∧
      (env.canvas_crs.isGeographic = false →
        f.Start = (roundTo 4 (tr env.canvas_crs wgs84_crs { x := r.P1x, y := r.P1y }).y,
                   roundTo 4 (tr env.canvas_crs wgs84_crs { x := r.P1x, y := r.P1y }).x) ∧
        f.Stop = (roundTo 4 (tr env.canvas_crs wgs84_crs
                      { x := r.P2x.getD 0, y := r.P2y.getD 0 }).y,
                  roundTo 4 (tr env.canvas_crs wgs84_crs
                      { x := r.P2x.getD 0, y := r.P2y.getD 0 }).x)) := by
  intro k f r hf hr
  simp only [finish_measurement] at hl
  by_cases hemp : (s.table_rows.filter (fun r => r.P2x.isSome)).isEmpty = true
  · rw [if_pos hemp] at hl
    exact absurd hl (by simp)
  · rw [if_neg hemp] at hl
    simp only [Option.some.injEq] at hl
    subst hl
    rw [List.get?_eq_getElem?, List.getElem?_map] at hf
    rw [List.get?_eq_getElem?] at hr
    rw [hr] at hf
    simp only [Option.map_some', Option.map_some, Option.some.injEq] at hf
    subst hf
    constructor
    · intro hgeo
      constructor <;> simp [mkFeature, hgeo]
    · intro hgeo
      constructor <;> simp [mkFeature, hgeo]

/-- The complete row of the concrete two-click run. -/
def c8row : Row :=
  { Line_ID := 1
    P1x := 10
    P1y := 20
    P2x := some 11
    P2y := some 21
    length_m := some 5
    length_nm := some 0
    cum_length_m := some 5
    cum_length_nm := some 0 }

/-- The open row of the concrete two-click run. -/
def c8open : Row :=
  { Line_ID := 2
    P1x := 11
    P1y := 21
    P2x := none
    P2y := none
    length_m := none
    length_nm := none
    cum_length_m := none
    cum_length_nm := none }

/-- The explicit state of the concrete two-click run. -/
def c8state : ToolState :=
  { table_rows := [c8row, c8open]
    n := 1
    var_cum_length_m := 5
    last_point := some { x := 11, y := 21 }
    click_count := 2
    is_measuring := true
    temp_rb := []
    main_rb := [{ x := 10, y := 20 }, { x := 11, y := 21 }]
    da := { sourceCrs := crsGeo, ellipsoid := "WGS84" }
    point_id_counter := 2 }

/-- The output feature produced by finishing the concrete two-click run. -/
def c8feat : Feature :=
  { Line_ID := 1
    Start := (20, 10)
    Stop := (21, 11)
    length_m := some 5
    length_nm := some 0
    cum_length_m := some 5
    cum_length_nm := some 0
    geometry := ({ x := 10, y := 20 }, { x := 11, y := 21 }) }

/-- The output layer produced by finishing the concrete two-click run. -/
def c8lay : Layer := { crs := crsGeo, features := [c8feat] }

/-- Evaluation of the two-click run. -/
lemma c8state_eq : runClicks mConst envGeo cs2geo = c8state := by
  rw [runClicks_spec mConst envGeo cs2geo (by decide)]
  norm_num [expectedState, c8state, c8row, c8open, completeRow, firstRow, segLenRaw, cumRaw,
    ptAt, envAt, round6pt, cs2geo, mConst, roundTo, pyRoundInt, envGeo, freshDA,
    resolveEllipsoid, crsGeo, List.range_succ]

/-- Evaluation of finishing the two-click run. -/
lemma c8lay_eq : (finish_measurement trId envGeo c8state).2 = some c8lay := by
  norm_num [finish_measurement, c8state, c8row, c8open, c8lay, c8feat, mkFeature, trId,
    envGeo, crsGeo, roundTo, pyRoundInt]

/-- Witness for C8 on the concrete two-click run in a geographic system. -/
theorem c8_witness :
    ((finish_measurement trId envGeo (runClicks mConst envGeo cs2geo)).2 = some c8lay) ∧
    (envGeo.canvas_crs.isGeographic = true →
      c8feat.Start = (roundTo 4 c8row.P1y, roundTo 4 c8row.P1x) ∧
      c8feat.Stop = (roundTo 4 (c8row.P2y.getD 0), roundTo 4 (c8row.P2x.getD 0))) := by
  have hl : (finish_measurement trId envGeo (runClicks mConst envGeo cs2geo)).2
      = some c8lay := by
    rw [c8state_eq]
    exact c8lay_eq
  have hf : c8lay.features.get? 0 = some c8feat := rfl
  have hr : ((runClicks mConst envGeo cs2geo).table_rows.filter (fun r => r.P2x.isSome)).get? 0
      = some c8row := by
    rw [c8state_eq]
    rfl
  exact ⟨hl, ((c8_start_stop_format trId envGeo (runClicks mConst envGeo cs2geo) c8lay hl)
      0 c8feat c8row hf hr).1⟩

/-- A two-click run whose second point needs more than 6 decimal places. -/
def cs9 : List (Env × Point) :=
  [(envGeo, { x := 0, y := 0 }), (envGeo, { x := 1/2000000, y := 0 })]

/-- C9 as stated is false: the inputs of the geodesic computation are the
stored 6-decimal-rounded coordinates, not the raw click coordinates.  With
a second click at x = 1/2000000 (rounded to 0 at capture), the stored
length is 0, while the same engine applied to the raw coordinates yields 5
even after result rounding. -/
theorem c9_counterexample :
    ((runClicks mAmp envGeo cs9).table_rows.get? 0).map Row.length_m = some (some 0) ∧
    roundTo 1 (mAmp (freshDA envGeo) { x := 0, y := 0 } { x := 1/2000000, y := 0 }) = 5 ∧
    (0 : ℚ) ≠ 5 := by
  refine ⟨?_, ?_, by norm_num⟩
  · rw [runClicks_spec mAmp envGeo cs9 (by decide),
        expected_get_complete mAmp envGeo cs9 (by decide)]
    norm_num [completeRow, segLenRaw, cumRaw, ptAt, envAt, round6pt, cs9, mAmp,
      roundTo, pyRoundInt]
  · norm_num [mAmp, roundTo, pyRoundInt, freshDA, envGeo]

/-- C9 amended: vertex coordinates are rounded to 6 decimal places exactly
once, at click (capture) time, and a segment's geodesic computation takes
as inputs these stored 6-decimal-rounded coordinates (not the raw click
coordinates); only the resulting length is additionally rounded. -/
theorem c9_amended (measure : MeasureFn) (env0 : Env) (cs : List (Env × Point))
    (h2 : 2 ≤ cs.length) :
    ∀ k r, k < cs.length - 1 →
      (runClicks measure env0 cs).table_rows.get? k = some r →
      r.P1x = roundTo 6 (ptAt cs k).x ∧ r.P1y = roundTo 6 (ptAt cs k).y ∧
      r.P2x = some (roundTo 6 (ptAt cs (k + 1)).x) ∧
      r.P2y = some (roundTo 6 (ptAt cs (k + 1)).y) ∧
      r.length_m = some (roundTo 1 (measure (freshDA (envAt cs (k + 1)))
          { x := roundTo 6 (ptAt cs k).x, y := roundTo 6 (ptAt cs k).y }
          { x := roundTo 6 (ptAt cs (k + 1)).x, y := roundTo 6 (ptAt cs (k + 1)).y })) := by
  have hne : cs ≠ [] := by
    intro hcs
    rw [hcs] at h2
    simp at h2
  rw [runClicks_spec measure env0 cs hne]
  intro k r hk hget
  rw [expected_get_complete measure env0 cs hk] at hget
  simp only [Option.some.injEq] at hget
  subst hget
  exact ⟨rfl, rfl, rfl, rfl, rfl⟩

/-- The complete row of the run `cs9`. -/
def c9row : Row :=
  { Line_ID := 1
    P1x := 0
    P1y := 0
    P2x := some 0
    P2y := some 0
    length_m := some 0
    length_nm := some 0
    cum_length_m := some 0
    cum_length_nm := some 0 }

/-- Witness for the amended C9 on the concrete run `cs9`. -/
theorem c9_witness :
    c9row.P1x = roundTo 6 (ptAt cs9 0).x ∧ c9row.P1y = roundTo 6 (ptAt cs9 0).y ∧
    c9row.P2x = some (roundTo 6 (ptAt cs9 1).x) ∧
    c9row.P2y = some (roundTo 6 (ptAt cs9 1).y) ∧
    c9row.length_m = some (roundTo 1 (mAmp (freshDA (envAt cs9 1))
        { x := roundTo 6 (ptAt cs9 0).x, y := roundTo 6 (ptAt cs9 0).y }
        { x := roundTo 6 (ptAt cs9 1).x, y := roundTo 6 (ptAt cs9 1).y })) := by
  have hget : (runClicks mAmp envGeo cs9).table_rows.get? 0 = some c9row := by
    rw [runClicks_spec mAmp envGeo cs9 (by decide),
        expected_get_complete mAmp envGeo cs9 (by decide)]
    norm_num [completeRow, c9row, segLenRaw, cumRaw, ptAt, envAt, round6pt, cs9, mAmp,
      roundTo, pyRoundInt]
  exact c9_amended mAmp envGeo cs9 (by decide) 0 c9row (by decide) hget
